import Mathlib

/-!
Verification development for the nextya-sync tree-reconciliation engine
(`processor/processor.go`).  The processor's pure logic (path handling,
name decoding, needs-sync classification, folder-chain creation, the
recursive reconciler `syncFolders`, and the orchestrator `Main`) is
shallowly embedded below.  The two remote backends (Nextcloud WebDAV and
the Yandex Disk REST client) are external collaborators; per the remote
directory abstraction they are modelled as oracles: each remote operation
is a function field of a client-state record giving that operation's
outcome, and operations that change the remote (folder creation, upload)
additionally update an explicit set of paths whose metadata resolves.
Timestamps (`time.Time`) are modelled as integers ordered by `<`;
`a.After(b)` is `b < a`.  Recursion that in Go terminates because paths
shrink or trees are finite is given an explicit fuel parameter.
-/

namespace Nextya

/-! ### Go `path` / `strings` / `net/url` helpers

`goBase`, `goDir`, `goClean` model Go's `path.Base`, `path.Dir` and
`path.Clean`; `normalizePath` models the normalization at the top of
`createFolderChain` (`strings.Trim(strings.ReplaceAll(p, "\\", "/"), "/")`);
`queryUnescape` models `net/url.QueryUnescape` (percent-decoding in query
mode, in which `+` decodes to a space), acting on characters. -/

def goSlashChar (c : Char) : Char := if c = '\\' then '/' else c

def trimSlashesList (l : List Char) : List Char :=
  ((l.dropWhile (fun c => c == '/')).reverse.dropWhile (fun c => c == '/')).reverse

def normalizePath (p : String) : String :=
  List.asString (trimSlashesList (p.data.map goSlashChar))

/-- Split a character list at `'/'`, keeping empty segments
(the behaviour of Go's `strings.Split(s, "/")`). -/
def splitSlashAux : List Char → List Char → List (List Char)
  | [], acc => [acc.reverse]
  | '/' :: rest, acc => acc.reverse :: splitSlashAux rest []
  | c :: rest, acc => splitSlashAux rest (c :: acc)

/-- One step of Go `path.Clean`'s segment processing; `out` is the output
stack, most recent segment first. -/
def cleanStep (rooted : Bool) (out : List (List Char)) (seg : List Char) : List (List Char) :=
  if seg = [] ∨ seg = ['.'] then out
  else if seg = ['.', '.'] then
    if rooted then out.tail
    else
      match out with
      | [] => [['.', '.']]
      | t :: rest => if t = ['.', '.'] then seg :: out else rest
  else seg :: out

/-- Go `path.Clean`. -/
def goClean (p : String) : String :=
  if p = "" then "."
  else
    let cs := p.data
    let rooted := cs.head? = some '/'
    let segs := ((splitSlashAux cs []).foldl (cleanStep rooted) []).reverse
    if rooted then List.asString ('/' :: List.intercalate ['/'] segs)
    else if segs = [] then "."
    else List.asString (List.intercalate ['/'] segs)

/-- The directory part of a path including the final slash,
Go `path.Split`'s first component. -/
def dirPartList (l : List Char) : List Char :=
  (l.reverse.dropWhile (fun c => !(c == '/'))).reverse

/-- Go `path.Dir`: everything before the final path element, `Clean`ed. -/
def goDir (p : String) : String :=
  goClean (List.asString (dirPartList p.data))

/-- Go `path.Base`: the final element of the path. -/
def goBase (p : String) : String :=
  if p = "" then "."
  else
    let cs := p.data.reverse.dropWhile (fun c => c == '/')
    if cs = [] then "/"
    else List.asString ((cs.takeWhile (fun c => !(c == '/'))).reverse)

/-- Go `unicode` hex-digit test used by `net/url`'s unescaping. -/
def isHexChar (c : Char) : Bool :=
  c.isDigit || ('a' ≤ c && c ≤ 'f') || ('A' ≤ c && c ≤ 'F')

def hexVal (c : Char) : Nat :=
  if c.isDigit then c.toNat - 48
  else if 'a' ≤ c && c ≤ 'f' then c.toNat - 87
  else c.toNat - 55

/-- Character-level model of Go `net/url.QueryUnescape`: `%XY` with two
hex digits decodes to the character of code `16*X+Y`, `+` decodes to a
space, a malformed escape is an error (`none`).  (Go works on bytes; the
claims only exercise single-byte escapes, on which the two agree.) -/
def unescapeChars : List Char → Option (List Char)
  | [] => some []
  | c :: rest =>
    if c = '%' then
      match rest with
      | a :: b :: rest' =>
        if isHexChar a && isHexChar b then
          (unescapeChars rest').map (fun t => Char.ofNat (16 * hexVal a + hexVal b) :: t)
        else none
      | _ => none
    else if c = '+' then (unescapeChars rest).map (fun t => ' ' :: t)
    else (unescapeChars rest).map (fun t => c :: t)

def queryUnescape (s : String) : Option String :=
  (unescapeChars s.data).map List.asString

/-! ### Data model (`models/fs.go`, `models/files.go`) -/

/-- Model of `models.File`: a leaf of the in-memory tree. -/
structure File where
  Path : String
  Modified : Int
deriving DecidableEq, Repr

/-- Model of `models.Folder`: a tree node (an inductive because the `Folders`
field is recursive). -/
inductive Folder where
  | mk (Path : String) (Modified : Int) (Files : List File) (Folders : List Folder)
deriving Repr

def Folder.Path : Folder → String
  | .mk p _ _ _ => p

def Folder.Modified : Folder → Int
  | .mk _ m _ _ => m

def Folder.Files : Folder → List File
  | .mk _ _ fs _ => fs

def Folder.Folders : Folder → List Folder
  | .mk _ _ _ ds => ds

/-- Model of `models.FileInfo`: one listing record returned by a backend. -/
structure FileInfo where
  Name : String
  Path : String
  Size : Int
  IsDir : Bool
  ModTime : Int
deriving DecidableEq, Repr

/-- Error kinds of the spec's taxonomy.  Go passes opaque `error` values
and wraps them with `fmt.Errorf("...: %w", err)`, which preserves the
wrapped error's identity; the model therefore propagates the kind
unchanged through wraps.  `fuelExhausted` is the modelling artifact for
running out of recursion fuel. -/
inductive CloudErr where
  | notFound
  | alreadyExists
  | remoteUnavailable
  | configurationError
  | fuelExhausted
deriving DecidableEq, Repr

/-- Oracle model of the Yandex Disk client (the destination remote):
`existing` is the set of paths whose `GetFileInfo` resolves; `mkdirE` and
`uploadE` give the outcome of `CreateFolder` and `UploadFile` when they
are invoked on a path (`none` = success; a successful call adds the path
to `existing`); `listing` gives the outcome of `ListFiles`. -/
structure YState where
  existing : List String
  mkdirE : String → Option CloudErr
  uploadE : String → Option CloudErr
  listing : String → Except CloudErr (List FileInfo)

/-- Model of `GetFileInfo` on the Yandex client: resolves exactly on `existing`. -/
def YState.getFileInfoE (st : YState) (p : String) : Option CloudErr :=
  if st.existing.contains p then none else some .notFound

/-- Oracle model of the Nextcloud client (the source remote). -/
structure NState where
  listing : String → Except CloudErr (List FileInfo)
  downloadE : String → Option CloudErr
  infoE : String → Option CloudErr

/-- Model of `SyncStats` (processor.go, lines 133-138).  Go's `int` counters are
modelled as integers. -/
structure SyncStats where
  TotalFiles : Int
  UploadedFiles : Int
  SkippedFiles : Int
  ErrorFiles : Int
deriving DecidableEq, Repr

def SyncStats.zero : SyncStats := ⟨0, 0, 0, 0⟩

/-! ### Go map model

`syncFolders` builds Go maps keyed by base name; a Go map insert
overwrites the previous value of the key, and lookup returns the value
of the key if present. -/

def mapInsert {α : Type} (m : List (String × α)) (k : String) (v : α) : List (String × α) :=
  if (m.find? (fun kv => kv.1 == k)).isSome then
    m.map (fun kv => if kv.1 == k then (k, v) else kv)
  else m ++ [(k, v)]

def mapLookup {α : Type} (m : List (String × α)) (k : String) : Option α :=
  (m.find? (fun kv => kv.1 == k)).map (fun kv => kv.2)

/-- processor.go lines 177-181: the destination file map, keyed by
`path.Base(file.Path)`. -/
def buildFileMap (files : List File) : List (String × File) :=
  files.foldl (fun m f => mapInsert m (goBase f.Path) f) []

/-- processor.go lines 184-188: the destination folder map. -/
def buildFolderMap (folders : List Folder) : List (String × Folder) :=
  folders.foldl (fun m f => mapInsert m (goBase f.Path) f) []

/-! ### Folder chain creation (processor.go lines 141-172) -/

/-- Model of `createFolderChain`: recursively creates every missing directory
level of `folderPath` on the Yandex side.  Returns the Go error result,
the updated remote state, and the list of `CreateFolder` (mkdir) calls
that were issued, in order.  The Go recursion terminates because
`path.Dir` shortens the path; here it is bounded by `fuel`. -/
def createFolderChain (fuel : Nat) (st : YState) (folderPath : String) :
    Option CloudErr × YState × List String :=
  match fuel with
  | 0 => (some .fuelExhausted, st, [])
  | fuel + 1 =>
    -- Normalize path separators and remove leading/trailing slashes
    let fp := normalizePath folderPath
    if fp = "" then (none, st, [])
    -- Check if folder already exists (GetFileInfo resolves)
    else if st.existing.contains fp then (none, st, [])
    else
      let parentPath := goDir fp
      let parentRes :=
        if parentPath ≠ "." ∧ parentPath ≠ "/" ∧ parentPath ≠ fp then
          createFolderChain fuel st parentPath
        else (none, st, [])
      match parentRes with
      | (some e, st1, calls1) => (some e, st1, calls1)
      | (none, st1, calls1) =>
        -- Create current folder
        match st1.mkdirE fp with
        | some e => (some e, st1, calls1 ++ [fp])
        | none => (none, { st1 with existing := fp :: st1.existing }, calls1 ++ [fp])

/-! ### Individual file sync (processor.go lines 267-295) -/

/-- Model of `syncFile`: download from Nextcloud, fetch its info for the size,
upload to `yandexBasePath + "/" + decodedFileName`.  A successful upload
makes the uploaded path resolvable on the destination. -/
def syncFile (nst : NState) (st : YState) (ncFilePath yandexBasePath fileName : String) :
    Option CloudErr × YState :=
  let decodedFileName := (queryUnescape fileName).getD fileName
  match nst.downloadE ncFilePath with
  | some e => (some e, st)
  | none =>
    match nst.infoE ncFilePath with
    | some e => (some e, st)
    | none =>
      let yandexFilePath := yandexBasePath ++ "/" ++ decodedFileName
      match st.uploadE yandexFilePath with
      | some e => (some e, st)
      | none => (none, { st with existing := yandexFilePath :: st.existing })

/-! ### The reconciler (processor.go lines 175-264) -/

/-- The decoded base name of a source entry: `path.Base`, then
`url.QueryUnescape` with fallback to the raw name on decode failure
(processor.go lines 193-200 and 234-241). -/
def decodedBaseName (p : String) : String :=
  let fileName := goBase p
  match queryUnescape fileName with
  | some d => d
  | none => fileName

/-- The needs-sync decision for one source file (processor.go lines
202-219): sync if no destination file of the decoded base name exists,
or the source is strictly newer (`Modified.After`). -/
def needsSync (yandexFiles : List (String × File)) (decodedFileName : String)
    (ncModified : Int) : Bool :=
  match mapLookup yandexFiles decodedFileName with
  | none => true
  | some yandexFile => decide (yandexFile.Modified < ncModified)

/-- The body of the file loop of `syncFolders` for one source file
(processor.go lines 191-229). -/
def syncFileStep (nst : NState) (st : YState) (ncFile : File)
    (yandexFiles : List (String × File)) (yandexBasePath : String)
    (stats : SyncStats) : YState × SyncStats :=
  let stats1 := { stats with TotalFiles := stats.TotalFiles + 1 }
  let fileName := goBase ncFile.Path
  let decodedFileName := decodedBaseName ncFile.Path
  if needsSync yandexFiles decodedFileName ncFile.Modified then
    match syncFile nst st ncFile.Path yandexBasePath fileName with
    | (some _, st1) => (st1, { stats1 with ErrorFiles := stats1.ErrorFiles + 1 })
    | (none, st1) => (st1, { stats1 with UploadedFiles := stats1.UploadedFiles + 1 })
  else
    (st, { stats1 with SkippedFiles := stats1.SkippedFiles + 1 })

/-- The file loop of `syncFolders` over the source folder's files. -/
def syncFilesLoop (nst : NState) (st : YState) (files : List File)
    (yandexFiles : List (String × File)) (yandexBasePath : String)
    (stats : SyncStats) : YState × SyncStats :=
  match files with
  | [] => (st, stats)
  | f :: rest =>
    let r := syncFileStep nst st f yandexFiles yandexBasePath stats
    syncFilesLoop nst r.1 rest yandexFiles yandexBasePath r.2

mutual

/-- Model of `syncFolders`: reconcile one source folder against one destination
folder (processor.go lines 175-264).  Returns the updated destination
remote state, the updated stats, and the Go error result.  `chainFuel`
bounds `createFolderChain`'s path recursion only. -/
def syncFolders (chainFuel : Nat) (nst : NState) (st : YState)
    (ncFolder yandexFolder : Folder) (yandexBasePath : String)
    (stats : SyncStats) : YState × SyncStats × Option CloudErr :=
  match ncFolder with
  | .mk _ _ ncFiles ncSubs =>
    let yandexFiles := buildFileMap yandexFolder.Files
    let yandexFolders := buildFolderMap yandexFolder.Folders
    let r := syncFilesLoop nst st ncFiles yandexFiles yandexBasePath stats
    let r2 := syncSubLoop chainFuel nst r.1 ncSubs yandexFolders yandexBasePath r.2
    (r2.1, r2.2, none)

/-- The subfolder loop of `syncFolders` (processor.go lines 233-261):
for each source subfolder, create the destination folder chain when no
destination subfolder of the decoded name exists (skipping the subfolder
when that fails), then recurse (a recursion error is logged and
discarded). -/
def syncSubLoop (chainFuel : Nat) (nst : NState) (st : YState)
    (subs : List Folder) (yandexFolders : List (String × Folder))
    (yandexBasePath : String) (stats : SyncStats) : YState × SyncStats :=
  match subs with
  | [] => (st, stats)
  | sub :: rest =>
    let decodedFolderName := decodedBaseName sub.Path
    let yandexSubFolderPath := yandexBasePath ++ "/" ++ decodedFolderName
    match mapLookup yandexFolders decodedFolderName with
    | none =>
      match createFolderChain chainFuel st yandexSubFolderPath with
      | (some _, st1, _) =>
        -- Error creating folder chain: skip this subfolder
        syncSubLoop chainFuel nst st1 rest yandexFolders yandexBasePath stats
      | (none, st1, _) =>
        let ySub := Folder.mk yandexSubFolderPath 0 [] []
        let r := syncFolders chainFuel nst st1 sub ySub yandexSubFolderPath stats
        -- A recursion error would only be logged; continue with siblings
        syncSubLoop chainFuel nst r.1 rest yandexFolders yandexBasePath r.2.1
    | some ySub =>
      let r := syncFolders chainFuel nst st sub ySub yandexSubFolderPath stats
      syncSubLoop chainFuel nst r.1 rest yandexFolders yandexBasePath r.2.1

end

/-! ### Snapshot builders (processor.go lines 297-349) -/

/-- Model of `getYandexFileSystem`: recursively materialize the destination tree
by listing; for each listed entry, recurse when it is a directory and
append the resulting subfolder, otherwise append a file node, in listing
order, propagating the first error (Go's early `return`, the `Except`
bind).  The Go recursion terminates because listings produce child paths
strictly below the parent; here depth is bounded by `fuel`. -/
def getYandexFileSystem (fuel : Nat) (st : YState) (rootPath : String) :
    Except CloudErr Folder :=
  match fuel with
  | 0 => .error .fuelExhausted
  | fuel + 1 =>
    match st.listing rootPath with
    | .error e => .error e
    | .ok files =>
      files.foldlM (fun acc fi =>
        if fi.IsDir then
          match getYandexFileSystem fuel st fi.Path with
          | .error e => .error e
          | .ok subFolder =>
            .ok (Folder.mk acc.Path acc.Modified acc.Files (acc.Folders ++ [subFolder]))
        else
          .ok (Folder.mk acc.Path acc.Modified
            (acc.Files ++ [File.mk fi.Path fi.ModTime]) acc.Folders))
        (Folder.mk rootPath 0 [] [])

/-- Model of `getNextcloudFileSystem`: the source-side snapshot builder, the same
recursion against the Nextcloud client. -/
def getNextcloudFileSystem (fuel : Nat) (nst : NState) (rootPath : String) :
    Except CloudErr Folder :=
  match fuel with
  | 0 => .error .fuelExhausted
  | fuel + 1 =>
    match nst.listing rootPath with
    | .error e => .error e
    | .ok files =>
      files.foldlM (fun acc fi =>
        if fi.IsDir then
          match getNextcloudFileSystem fuel nst fi.Path with
          | .error e => .error e
          | .ok subFolder =>
            .ok (Folder.mk acc.Path acc.Modified acc.Files (acc.Folders ++ [subFolder]))
        else
          .ok (Folder.mk acc.Path acc.Modified
            (acc.Files ++ [File.mk fi.Path fi.ModTime]) acc.Folders))
        (Folder.mk rootPath 0 [] [])

/-! ### The orchestrator (processor.go lines 36-39 and 50-130) -/

/-- Model of `processor.Config`. -/
structure Config where
  YandexTargetPath : String
  NextcloudSyncPaths : List String

/-- The per-root destination subfolder name (processor.go lines 93-96):
the final path segment of the source root, with the fixed placeholder
`"root"` when `path.Base` gives `"/"` or `"."`. -/
def effectiveSegment (syncPath : String) : String :=
  let pathName := goBase syncPath
  if pathName = "/" ∨ pathName = "." then "root" else pathName

/-- The effective destination path for one source root (processor.go
lines 86-98): the destination root itself when exactly one source root
is configured, otherwise a subfolder named after the root's final
segment. -/
def targetPathFor (yandexTargetPath : String) (numPaths : Nat) (syncPath : String) : String :=
  if numPaths = 1 then yandexTargetPath
  else yandexTargetPath ++ "/" ++ effectiveSegment syncPath

/-- The per-source-root loop of `Main` (processor.go lines 74-124).
Returns the final remote state, the accumulated stats, and — for
specification purposes — the trace of destination base paths the
reconciler was invoked on, in order.  Every failure inside the loop
(`continue` in Go) skips to the next source root. -/
def mainLoop (fuel : Nat) (nst : NState) (yandexTargetPath : String) (numPaths : Nat)
    (yndxFs : Folder) (st : YState) (paths : List String) (stats : SyncStats) :
    YState × SyncStats × List String :=
  match paths with
  | [] => (st, stats, [])
  | syncPath :: rest =>
    match getNextcloudFileSystem fuel nst syncPath with
    | .error _ => mainLoop fuel nst yandexTargetPath numPaths yndxFs st rest stats
    | .ok ncFs =>
      let targetPath := targetPathFor yandexTargetPath numPaths syncPath
      -- Get or create corresponding Yandex folder structure
      if targetPath = yandexTargetPath then
        let r := syncFolders fuel nst st ncFs yndxFs targetPath stats
        -- A reconciler error would be logged and skipped; stats were
        -- already accumulated through the shared accumulator
        let rest' := mainLoop fuel nst yandexTargetPath numPaths yndxFs r.1 rest r.2.1
        (rest'.1, rest'.2.1, targetPath :: rest'.2.2)
      else
        match getYandexFileSystem fuel st targetPath with
        | .ok targetYandexFs =>
          let r := syncFolders fuel nst st ncFs targetYandexFs targetPath stats
          let rest' := mainLoop fuel nst yandexTargetPath numPaths yndxFs r.1 rest r.2.1
          (rest'.1, rest'.2.1, targetPath :: rest'.2.2)
        | .error _ =>
          -- Target subfolder doesn't exist: one direct CreateFolder call
          match st.mkdirE targetPath with
          | some _ => mainLoop fuel nst yandexTargetPath numPaths yndxFs st rest stats
          | none =>
            let st1 : YState := { st with existing := targetPath :: st.existing }
            let targetYandexFs := Folder.mk targetPath 0 [] []
            let r := syncFolders fuel nst st1 ncFs targetYandexFs targetPath stats
            let rest' := mainLoop fuel nst yandexTargetPath numPaths yndxFs r.1 rest r.2.1
            (rest'.1, rest'.2.1, targetPath :: rest'.2.2)

/-- Model of `Main` (processor.go lines 50-130): validate the configuration,
resolve or create the destination root, then run the per-root loop.
Returns the Go error result, the final remote state, the aggregated
stats, and the trace of reconciler invocations. -/
def Main (fuel : Nat) (nst : NState) (st : YState) (cfg : Config) :
    Option CloudErr × YState × SyncStats × List String :=
  if cfg.NextcloudSyncPaths.length = 0 then
    (some .configurationError, st, SyncStats.zero, [])
  else
    match getYandexFileSystem fuel st cfg.YandexTargetPath with
    | .ok yndxFs =>
      let r := mainLoop fuel nst cfg.YandexTargetPath cfg.NextcloudSyncPaths.length yndxFs
        st cfg.NextcloudSyncPaths SyncStats.zero
      (none, r)
    | .error _ =>
      -- Create target folder chain if it doesn't exist
      match createFolderChain fuel st cfg.YandexTargetPath with
      | (some e, st1, _) => (some e, st1, SyncStats.zero, [])
      | (none, st1, _) =>
        let yndxFs := Folder.mk cfg.YandexTargetPath 0 [] []
        let r := mainLoop fuel nst cfg.YandexTargetPath cfg.NextcloudSyncPaths.length yndxFs
          st1 cfg.NextcloudSyncPaths SyncStats.zero
        (none, r)

/-! ### Frame analysis of the reconciler

`syncFolders` receives its two trees by value and its statistics record
by pointer.  To state which of the caller-visible data the call changes,
`syncFoldersMem` is the same translation of processor.go lines 175-264
with the caller-visible program data — the two trees and the stats —
threaded as one explicit record: every Go statement that writes a
caller-visible location becomes an update of this record (the source's
only such writes are the `stats.X++` increments), and the recursive call
receives the subtrees exactly as the Go call does. -/

structure SyncMem where
  ncTree : Folder
  yxTree : Folder
  stats : SyncStats

mutual

/-- The reconciler in state-threading form; same source as
`syncFolders`. -/
def syncFoldersMem (chainFuel : Nat) (nst : NState) (st : YState)
    (mem : SyncMem) (yandexBasePath : String) : YState × SyncMem × Option CloudErr :=
  let yandexFiles := buildFileMap mem.yxTree.Files
  let yandexFolders := buildFolderMap mem.yxTree.Folders
  let r := syncFilesLoop nst st mem.ncTree.Files yandexFiles yandexBasePath mem.stats
  let r2 := syncSubLoopMem chainFuel nst r.1 mem.ncTree.Folders yandexFolders yandexBasePath
    (SyncMem.mk mem.ncTree mem.yxTree r.2)
  (r2.1, r2.2, none)
termination_by sizeOf mem.ncTree
decreasing_by
  rcases mem with ⟨nc, yx, ms⟩
  rcases nc with ⟨p, m, fs, ds⟩
  simp [Folder.Folders]
  try omega

/-- The subfolder loop in state-threading form; same source as
`syncSubLoop`.  The recursive call operates on a record holding the two
subtrees and the shared stats; afterwards the caller's own record
carries the stats the callee left behind. -/
def syncSubLoopMem (chainFuel : Nat) (nst : NState) (st : YState)
    (subs : List Folder) (yandexFolders : List (String × Folder))
    (yandexBasePath : String) (mem : SyncMem) : YState × SyncMem :=
  match subs with
  | [] => (st, mem)
  | sub :: rest =>
    let decodedFolderName := decodedBaseName sub.Path
    let yandexSubFolderPath := yandexBasePath ++ "/" ++ decodedFolderName
    match mapLookup yandexFolders decodedFolderName with
    | none =>
      match createFolderChain chainFuel st yandexSubFolderPath with
      | (some _, st1, _) =>
        syncSubLoopMem chainFuel nst st1 rest yandexFolders yandexBasePath mem
      | (none, st1, _) =>
        let r := syncFoldersMem chainFuel nst st1
          (SyncMem.mk sub (Folder.mk yandexSubFolderPath 0 [] []) mem.stats) yandexSubFolderPath
        syncSubLoopMem chainFuel nst r.1 rest yandexFolders yandexBasePath
          (SyncMem.mk mem.ncTree mem.yxTree r.2.1.stats)
    | some ySub =>
      let r := syncFoldersMem chainFuel nst st (SyncMem.mk sub ySub mem.stats) yandexSubFolderPath
      syncSubLoopMem chainFuel nst r.1 rest yandexFolders yandexBasePath
        (SyncMem.mk mem.ncTree mem.yxTree r.2.1.stats)
termination_by sizeOf subs
decreasing_by
  all_goals simp
  all_goals try omega

end

/-! ### Statistics orderings used by the accounting claims -/

/-- Componentwise order on statistics: every counter of `a` is at most
the corresponding counter of `b` (counters are only ever incremented). -/
def StatsLE (a b : SyncStats) : Prop :=
  a.TotalFiles ≤ b.TotalFiles ∧ a.UploadedFiles ≤ b.UploadedFiles ∧
  a.SkippedFiles ≤ b.SkippedFiles ∧ a.ErrorFiles ≤ b.ErrorFiles

/-- From `a` to `b` the total counter grew by exactly as much as the
uploaded, skipped and errored counters together. -/
def StatsBalanced (a b : SyncStats) : Prop :=
  b.TotalFiles + a.UploadedFiles + a.SkippedFiles + a.ErrorFiles =
    a.TotalFiles + b.UploadedFiles + b.SkippedFiles + b.ErrorFiles

/-! ### Concrete clients used by witnesses and counterexamples -/

/-- A destination remote on which every operation succeeds and nothing
exists yet. -/
def allOkY : YState :=
  ⟨[], fun _ => none, fun _ => none, fun _ => .ok []⟩

/-- A source remote on which every operation succeeds and every listing
is empty. -/
def allOkN : NState :=
  ⟨fun _ => .ok [], fun _ => none, fun _ => none⟩

/-- A destination remote where creating exactly the folder `"base/d"`
fails with `AlreadyExists` (a concurrent creation of that path). -/
def raceY : YState :=
  ⟨[], fun p => if p = "base/d" then some .alreadyExists else none,
    fun _ => none, fun _ => .ok []⟩

/-- A source remote whose downloads all fail (transfer failures). -/
def failN : NState :=
  ⟨fun _ => .ok [], fun _ => some .remoteUnavailable, fun _ => none⟩

/-- Scenario C of the spec: two source roots, one shared destination
root. -/
def cfgScenarioC : Config :=
  ⟨"/backup", ["/docs", "/photos"]⟩

/-- A destination file used by witnesses. -/
def yfWit : File := ⟨"/dest/a.txt", 7⟩

/-- A destination remote on which only the folder `"a"` exists. -/
def existsAY : YState :=
  ⟨["a"], fun _ => none, fun _ => none, fun _ => .ok []⟩

/-! ## Theorems -/

/-! ### String facts -/

theorem string_append_data (a b : String) : (a ++ b).data = a.data ++ b.data := rfl

theorem string_data_inj {a b : String} (h : a.data = b.data) : a = b :=
  congrArg String.mk h

theorem string_append_right_inj (a : String) {b c : String} (h : a ++ b = a ++ c) : b = c := by
  have hd := congrArg String.data h
  simp only [string_append_data] at hd
  exact string_data_inj (List.append_cancel_left hd)

theorem string_append_length (a b : String) : (a ++ b).length = a.length + b.length :=
  List.length_append a.data b.data

/-- Unescaping is the identity on character lists free of `%` and `+`. -/
theorem unescapeChars_id : ∀ (l : List Char), '%' ∉ l → '+' ∉ l → unescapeChars l = some l := by
  intro l
  induction l with
  | nil => intro _ _; rfl
  | cons c rest ih =>
    intro h1 h2
    simp only [List.mem_cons, not_or] at h1 h2
    have hr := ih (fun h => h1.2 h) (fun h => h2.2 h)
    have hc1 : ¬ c = '%' := fun h => h1.1 h.symm
    have hc2 : ¬ c = '+' := fun h => h2.1 h.symm
    rw [unescapeChars.eq_def]
    simp only [if_neg hc1, if_neg hc2, hr]
    rfl

/-! ### C1: needs-sync classification -/

/-- C1: a source file is classified as needing sync exactly when no
destination file of the decoded base name exists or the source
modification timestamp is strictly after the destination one; when a
destination counterpart with an equal-or-later timestamp exists, the
per-file step leaves the remote untouched and increments exactly the
total and skipped counters. -/
theorem needs_sync_classification :
    (∀ (yfs : List (String × File)) (d : String) (m : Int),
      needsSync yfs d m = true ↔
        (mapLookup yfs d = none ∨ ∃ yf, mapLookup yfs d = some yf ∧ yf.Modified < m))
    ∧ (∀ nst st f yfs bp stats yf,
        mapLookup yfs (decodedBaseName f.Path) = some yf →
        ¬ yf.Modified < f.Modified →
        syncFileStep nst st f yfs bp stats =
          (st, { stats with TotalFiles := stats.TotalFiles + 1,
                            SkippedFiles := stats.SkippedFiles + 1 })) := by
  constructor
  · intro yfs d m
    unfold needsSync
    cases h : mapLookup yfs d with
    | none => simp
    | some yf => simp
  · intro nst st f yfs bp stats yf hlk hlt
    have hns : needsSync yfs (decodedBaseName f.Path) f.Modified = false := by
      unfold needsSync
      rw [hlk]
      simpa using hlt
    simp only [syncFileStep, hns, Bool.false_eq_true, if_false]

/-- C1 witness: destination counterpart at timestamp 7, source at 5:
skipped. -/
theorem needs_sync_classification_witness :
    mapLookup [("a.txt", yfWit)] (decodedBaseName "/src/a.txt") = some yfWit
    ∧ ¬ yfWit.Modified < (5 : Int)
    ∧ syncFileStep allOkN allOkY (File.mk "/src/a.txt" 5) [("a.txt", yfWit)] "/dest" SyncStats.zero
        = (allOkY, { SyncStats.zero with TotalFiles := SyncStats.zero.TotalFiles + 1, SkippedFiles := SyncStats.zero.SkippedFiles + 1 }) :=
  ⟨by decide, by decide,
   needs_sync_classification.2 allOkN allOkY (File.mk "/src/a.txt" 5) [("a.txt", yfWit)]
     "/dest" SyncStats.zero yfWit (by decide) (by decide)⟩

/-! ### C3: multi-root destination mapping -/

/-- C3: with exactly one source root the orchestrator syncs directly
into the destination root; with several it syncs each root into the
destination subfolder named after that root's effective final segment,
never into the destination root itself; spec scenario C gives exactly
the targets `/backup/docs` and `/backup/photos`. -/
theorem multi_root_destination_mapping :
    (∀ ytp p, targetPathFor ytp 1 p = ytp)
    ∧ (∀ ytp n p, 2 ≤ n →
        targetPathFor ytp n p = ytp ++ "/" ++ effectiveSegment p
        ∧ targetPathFor ytp n p ≠ ytp)
    ∧ (Main 4 allOkN allOkY cfgScenarioC).2.2.2 = ["/backup/docs", "/backup/photos"]
    ∧ "/backup" ∉ (Main 4 allOkN allOkY cfgScenarioC).2.2.2 := by
  refine ⟨?_, ?_, by decide, by decide⟩
  · intro ytp p
    simp [targetPathFor]
  · intro ytp n p hn
    have hn1 : n ≠ 1 := by omega
    refine ⟨by simp [targetPathFor, hn1], ?_⟩
    simp only [targetPathFor, hn1, if_false]
    intro heq
    have := congrArg String.length heq
    simp only [string_append_length] at this
    have h1 : ("/" : String).length = 1 := rfl
    omega

/-- C3 witness at two configured roots. -/
theorem multi_root_destination_mapping_witness :
    targetPathFor "/backup" 2 "/docs" = "/backup" ++ "/" ++ effectiveSegment "/docs"
    ∧ targetPathFor "/backup" 2 "/docs" ≠ "/backup" :=
  multi_root_destination_mapping.2.1 "/backup" 2 "/docs" (by decide)

/-! ### C4: folder-chain idempotence -/

/-- A successful chain creation leaves the normalized path resolvable
(or the path was empty). -/
theorem chain_success_resolves {fuel : Nat} {st st1 : YState} {p : String} {calls : List String}
    (h : createFolderChain fuel st p = (none, st1, calls)) :
    normalizePath p = "" ∨ st1.existing.contains (normalizePath p) = true := by
  match fuel with
  | 0 => simp [createFolderChain] at h
  | fuel + 1 =>
    rw [createFolderChain] at h
    simp only [] at h
    by_cases h0 : normalizePath p = ""
    · exact Or.inl h0
    · right
      rw [if_neg h0] at h
      by_cases h1 : st.existing.contains (normalizePath p) = true
      · rw [if_pos h1] at h
        injection h with _ h'
        injection h' with h2 _
        rw [← h2]
        exact h1
      · rw [if_neg h1] at h
        split at h
        · exact absurd (congrArg Prod.fst h) (by simp)
        · split at h
          · exact absurd (congrArg Prod.fst h) (by simp)
          · injection h with _ h'
            injection h' with h2 _
            rw [← h2]
            simp

/-- A path already resolvable at the destination: immediate success, no
mkdir calls, state unchanged. -/
theorem chain_exists_noop (fuel : Nat) (st : YState) (p : String)
    (h : st.existing.contains (normalizePath p) = true) :
    createFolderChain (fuel + 1) st p = (none, st, []) := by
  rw [createFolderChain]
  by_cases h0 : normalizePath p = ""
  · rw [if_pos h0]
  · rw [if_neg h0, if_pos h]

/-- After one successful chain creation, a second call for the same path
returns success immediately with no mkdir calls. -/
theorem chain_idempotent_second (fuel fuel2 : Nat) (st st1 : YState) (p : String)
    (calls : List String) (h : createFolderChain fuel st p = (none, st1, calls)) :
    createFolderChain (fuel2 + 1) st1 p = (none, st1, []) := by
  rcases chain_success_resolves h with h0 | h1
  · rw [createFolderChain, if_pos h0]
  · exact chain_exists_noop fuel2 st1 p h1

/-- Every mkdir call the chain creator issues is for a level that did
not resolve at call time. -/
theorem chain_calls_fresh : ∀ (fuel : Nat) (st : YState) (p q : String),
    q ∈ (createFolderChain fuel st p).2.2 → st.existing.contains q = false := by
  intro fuel
  induction fuel with
  | zero =>
    intro st p q hq
    simp [createFolderChain] at hq
  | succ fuel ih =>
    intro st p q hq
    rw [createFolderChain] at hq
    simp only [] at hq
    by_cases h0 : normalizePath p = ""
    · rw [if_pos h0] at hq
      simp at hq
    · rw [if_neg h0] at hq
      by_cases h1 : st.existing.contains (normalizePath p) = true
      · rw [if_pos h1] at hq
        simp at hq
      · rw [if_neg h1] at hq
        by_cases hg : goDir (normalizePath p) ≠ "." ∧ goDir (normalizePath p) ≠ "/"
            ∧ goDir (normalizePath p) ≠ normalizePath p
        · rw [if_pos hg] at hq
          rcases hpr : createFolderChain fuel st (goDir (normalizePath p)) with ⟨r1, st1, calls1⟩
          rw [hpr] at hq
          have hsub : q ∈ calls1 → st.existing.contains q = false := by
            intro hmem
            have := ih st (goDir (normalizePath p)) q
            rw [hpr] at this
            exact this hmem
          cases r1 with
          | some e =>
            simp only [] at hq
            exact hsub hq
          | none =>
            cases hmk : st1.mkdirE (normalizePath p) with
            | some e =>
              simp only [hmk, List.mem_append, List.mem_singleton] at hq
              rcases hq with hq | hq
              · exact hsub hq
              · rw [hq]
                exact Bool.not_eq_true _ |>.mp h1
            | none =>
              simp only [hmk, List.mem_append, List.mem_singleton] at hq
              rcases hq with hq | hq
              · exact hsub hq
              · rw [hq]
                exact Bool.not_eq_true _ |>.mp h1
        · rw [if_neg hg] at hq
          cases hmk : st.mkdirE (normalizePath p) with
          | some e =>
            simp only [hmk, List.nil_append, List.mem_singleton] at hq
            rw [hq]
            exact Bool.not_eq_true _ |>.mp h1
          | none =>
            simp only [hmk, List.nil_append, List.mem_singleton] at hq
            rw [hq]
            exact Bool.not_eq_true _ |>.mp h1

/-- C4: folder-chain creation is idempotent: a path whose metadata
already resolves returns success immediately with no mkdir call; after
any successful creation a second call for the same path succeeds with no
mkdir call; and no mkdir call is ever issued for a level that already
exists. -/
theorem folder_chain_idempotent :
    (∀ fuel st p, st.existing.contains (normalizePath p) = true →
      createFolderChain (fuel + 1) st p = (none, st, []))
    ∧ (∀ fuel st p st1 calls, createFolderChain fuel st p = (none, st1, calls) →
        ∀ fuel2, createFolderChain (fuel2 + 1) st1 p = (none, st1, []))
    ∧ (∀ fuel st p q, q ∈ (createFolderChain fuel st p).2.2 →
        st.existing.contains q = false) :=
  ⟨fun fuel st p h => chain_exists_noop fuel st p h,
   fun fuel st p st1 calls h fuel2 => chain_idempotent_second fuel fuel2 st st1 p calls h,
   fun fuel st p q h => chain_calls_fresh fuel st p q h⟩

/-- C4 witness: creating `/a/b` over an existing `/a` issues exactly one
mkdir (for `a/b`); the repeat call issues none; a resolvable path is a
no-op. -/
theorem folder_chain_idempotent_witness :
    createFolderChain (2 + 1) existsAY "/a" = (none, existsAY, [])
    ∧ createFolderChain (3 + 1) { existsAY with existing := "a/b" :: existsAY.existing } "/a/b"
        = (none, { existsAY with existing := "a/b" :: existsAY.existing }, [])
    ∧ existsAY.existing.contains "a/b" = false :=
  ⟨folder_chain_idempotent.1 2 existsAY "/a" (by decide),
   folder_chain_idempotent.2.1 5 existsAY "/a/b"
     { existsAY with existing := "a/b" :: existsAY.existing } ["a/b"] rfl 3,
   folder_chain_idempotent.2.2 5 existsAY "/a/b" "a/b" (by decide)⟩

/-! ### C7: name decoding -/

/-- C7 counterexample: `"a+b.txt"` contains no percent-escape, yet the
decode function used by the reconciler does not return it unchanged
(`url.QueryUnescape` also turns `+` into a space). -/
theorem decode_plus_counterexample :
    '%' ∉ ("a+b.txt" : String).data
    ∧ queryUnescape "a+b.txt" ≠ some "a+b.txt" := by
  constructor
  · decide
  · decide

/-- C7 (amended): decoding is the identity on every name containing
neither a percent sign nor a plus sign; `"my%20file.txt"` decodes to
`"my file.txt"`, which is the destination-map lookup key the reconciler
uses. -/
theorem decode_identity_and_lookup :
    (∀ s : String, '%' ∉ s.data → '+' ∉ s.data → queryUnescape s = some s)
    ∧ queryUnescape "my%20file.txt" = some "my file.txt"
    ∧ decodedBaseName "/src/my%20file.txt" = "my file.txt" := by
  refine ⟨?_, by decide, by decide⟩
  intro s h1 h2
  unfold queryUnescape
  rw [unescapeChars_id s.data h1 h2]
  rfl

/-- C7 witness: `"report.txt"` decodes to itself. -/
theorem decode_identity_witness :
    '%' ∉ ("report.txt" : String).data ∧ '+' ∉ ("report.txt" : String).data
    ∧ queryUnescape "report.txt" = some "report.txt" :=
  ⟨by decide, by decide, decode_identity_and_lookup.1 "report.txt" (by decide) (by decide)⟩

/-! ### C8: root-to-subfolder mapping -/

/-- C8 counterexample: the two distinct source roots `/a/x` and `/b/x`
are mapped to the same destination subfolder. -/
theorem root_mapping_collision :
    ("/a/x" : String) ≠ "/b/x"
    ∧ targetPathFor "/backup" 2 "/a/x" = targetPathFor "/backup" 2 "/b/x" := by
  constructor
  · decide
  · decide

/-- C8 (amended): with two or more configured source roots the mapping
to destination subfolders is injective on roots whose effective final
segments differ. -/
theorem root_mapping_injective (ytp : String) (n : Nat) (p q : String)
    (hn : 2 ≤ n) (hseg : effectiveSegment p ≠ effectiveSegment q) :
    targetPathFor ytp n p ≠ targetPathFor ytp n q := by
  have hn1 : n ≠ 1 := by omega
  simp only [targetPathFor, hn1, if_false]
  intro heq
  exact hseg (string_append_right_inj (ytp ++ "/") heq)

/-- C8 witness: distinct segments give distinct targets. -/
theorem root_mapping_injective_witness :
    effectiveSegment "/docs" ≠ effectiveSegment "/photos"
    ∧ targetPathFor "/backup" 2 "/docs" ≠ targetPathFor "/backup" 2 "/photos" :=
  ⟨by decide, root_mapping_injective "/backup" 2 "/docs" "/photos" (by decide) (by decide)⟩

/-! ### C5: fatality of the run -/

/-- C5: `Main` returns a non-success result exactly when the configured
source-root sequence is empty, or the destination root's initial
resolution fails and its folder-chain creation also fails.  In
particular every failure inside the per-root loop leaves `Main`
returning success. -/
theorem main_fatality (fuel : Nat) (nst : NState) (st : YState) (cfg : Config) :
    (Main fuel nst st cfg).1.isSome = true ↔
      (cfg.NextcloudSyncPaths = []
        ∨ ((∃ e, getYandexFileSystem fuel st cfg.YandexTargetPath = Except.error e)
           ∧ (∃ e, (createFolderChain fuel st cfg.YandexTargetPath).1 = some e))) := by
  unfold Main
  by_cases h0 : cfg.NextcloudSyncPaths.length = 0
  · have : cfg.NextcloudSyncPaths = [] := List.length_eq_zero.mp h0
    simp [h0, this]
  · have hne : cfg.NextcloudSyncPaths ≠ [] := by
      intro h
      rw [h] at h0
      exact h0 rfl
    rw [if_neg h0]
    cases hy : getYandexFileSystem fuel st cfg.YandexTargetPath with
    | ok f => simp [hne]
    | error e =>
      rcases hc : createFolderChain fuel st cfg.YandexTargetPath with ⟨r1, st1, calls⟩
      cases r1 with
      | some e2 => simp [hne, hc]
      | none => simp [hne, hc]

/-! ### C2 and C6: partial-failure behaviour of the reconciler -/

/-- When no destination subfolder of the decoded name exists and chain
creation fails, the subfolder is skipped: the loop continues with the
remaining siblings, the stats unchanged by this subfolder. -/
theorem syncSubLoop_skip (chainFuel : Nat) (nst : NState) (st : YState) (sub : Folder)
    (rest : List Folder) (yfolders : List (String × Folder)) (bp : String) (stats : SyncStats)
    (hlk : mapLookup yfolders (decodedBaseName sub.Path) = none)
    (e : CloudErr)
    (hc : (createFolderChain chainFuel st (bp ++ "/" ++ decodedBaseName sub.Path)).1 = some e) :
    syncSubLoop chainFuel nst st (sub :: rest) yfolders bp stats =
      syncSubLoop chainFuel nst
        (createFolderChain chainFuel st (bp ++ "/" ++ decodedBaseName sub.Path)).2.1
        rest yfolders bp stats := by
  rw [syncSubLoop]
  simp only [hlk]
  rcases hcc : createFolderChain chainFuel st (bp ++ "/" ++ decodedBaseName sub.Path)
    with ⟨r1, st1, calls⟩
  rw [hcc] at hc
  simp only [] at hc
  rw [hc]

/-- The reconciler's error result is `none` on every input: the only
return site of `syncFolders` yields success. -/
theorem syncFolders_err_none (chainFuel : Nat) (nst : NState) (st : YState)
    (nc yx : Folder) (bp : String) (stats : SyncStats) :
    (syncFolders chainFuel nst st nc yx bp stats).2.2 = none := by
  cases nc
  rfl

/-- A failing transfer makes the file loop increment exactly the total
and errored counters for that file and continue with the remaining
files. -/
theorem syncFilesLoop_error_continue (nst : NState) (st : YState) (f : File)
    (rest : List File) (yfs : List (String × File)) (bp : String) (stats : SyncStats)
    (hns : needsSync yfs (decodedBaseName f.Path) f.Modified = true)
    (e : CloudErr) (he : (syncFile nst st f.Path bp (goBase f.Path)).1 = some e) :
    syncFilesLoop nst st (f :: rest) yfs bp stats =
      syncFilesLoop nst (syncFile nst st f.Path bp (goBase f.Path)).2 rest yfs bp
        { stats with TotalFiles := stats.TotalFiles + 1, ErrorFiles := stats.ErrorFiles + 1 } := by
  have hstep : syncFileStep nst st f yfs bp stats =
      ((syncFile nst st f.Path bp (goBase f.Path)).2,
       { stats with TotalFiles := stats.TotalFiles + 1, ErrorFiles := stats.ErrorFiles + 1 }) := by
    unfold syncFileStep
    simp only [hns, if_true]
    rcases hsf : syncFile nst st f.Path bp (goBase f.Path) with ⟨r1, st1⟩
    rw [hsf] at he
    simp only [] at he
    rw [he]
  rw [syncFilesLoop]
  simp only [hstep]

/-- C2: partial-failure isolation: the top-level reconcile call returns
success on every pair of input trees; a transfer failure of one file
increments the errored counter and processing continues with the next
file; a subfolder whose chain creation fails is skipped while its
siblings are still processed. -/
theorem failure_isolation :
    (∀ chainFuel nst st nc yx bp stats,
      (syncFolders chainFuel nst st nc yx bp stats).2.2 = none)
    ∧ (∀ nst st f rest yfs bp stats,
        needsSync yfs (decodedBaseName f.Path) f.Modified = true →
        ∀ e, (syncFile nst st f.Path bp (goBase f.Path)).1 = some e →
        syncFilesLoop nst st (f :: rest) yfs bp stats =
          syncFilesLoop nst (syncFile nst st f.Path bp (goBase f.Path)).2 rest yfs bp
            { stats with TotalFiles := stats.TotalFiles + 1, ErrorFiles := stats.ErrorFiles + 1 })
    ∧ (∀ chainFuel nst st sub rest yfolders bp stats,
        mapLookup yfolders (decodedBaseName sub.Path) = none →
        ∀ e, (createFolderChain chainFuel st (bp ++ "/" ++ decodedBaseName sub.Path)).1 = some e →
        syncSubLoop chainFuel nst st (sub :: rest) yfolders bp stats =
          syncSubLoop chainFuel nst
            (createFolderChain chainFuel st (bp ++ "/" ++ decodedBaseName sub.Path)).2.1
            rest yfolders bp stats) :=
  ⟨fun chainFuel nst st nc yx bp stats => syncFolders_err_none chainFuel nst st nc yx bp stats,
   fun nst st f rest yfs bp stats hns e he =>
     syncFilesLoop_error_continue nst st f rest yfs bp stats hns e he,
   fun chainFuel nst st sub rest yfolders bp stats hlk e hc =>
     syncSubLoop_skip chainFuel nst st sub rest yfolders bp stats hlk e hc⟩

/-- C2 witness: a failing download errors one file and continues; a
failing chain creation skips one subfolder and continues. -/
theorem failure_isolation_witness :
    (syncFolders 4 allOkN allOkY (Folder.mk "/src" 0 [] []) (Folder.mk "/dest" 0 [] [])
        "/dest" SyncStats.zero).2.2 = none
    ∧ syncFilesLoop failN allOkY [File.mk "/src/a.txt" 5] [] "/dest" SyncStats.zero =
        syncFilesLoop failN (syncFile failN allOkY "/src/a.txt" "/dest" (goBase "/src/a.txt")).2
          [] [] "/dest"
          { SyncStats.zero with TotalFiles := SyncStats.zero.TotalFiles + 1, ErrorFiles := SyncStats.zero.ErrorFiles + 1 }
    ∧ syncSubLoop 4 allOkN raceY [Folder.mk "/src/d" 0 [] []] [] "base" SyncStats.zero =
        syncSubLoop 4 allOkN
          (createFolderChain 4 raceY ("base" ++ "/" ++ decodedBaseName "/src/d")).2.1
          [] [] "base" SyncStats.zero :=
  ⟨failure_isolation.1 4 allOkN allOkY (Folder.mk "/src" 0 [] [])
     (Folder.mk "/dest" 0 [] []) "/dest" SyncStats.zero,
   failure_isolation.2.1 failN allOkY (File.mk "/src/a.txt" 5) [] [] "/dest"
     SyncStats.zero (by decide) CloudErr.remoteUnavailable (by decide),
   failure_isolation.2.2 4 allOkN raceY (Folder.mk "/src/d" 0 [] []) [] [] "base"
     SyncStats.zero rfl CloudErr.alreadyExists (by decide)⟩

/-- C6 counterexample: chain creation for the subfolder `d` fails with
`AlreadyExists` (mkdir of `base/d` races with a concurrent creation),
and the caller does NOT treat this as success: the subfolder is skipped
entirely — its one file is never processed, all counters stay zero. -/
theorem already_exists_not_success_counterexample :
    (createFolderChain 4 raceY "base/d").1 = some CloudErr.alreadyExists
    ∧ (syncSubLoop 4 allOkN raceY [Folder.mk "/src/d" 0 [File.mk "/src/d/f" 1] []] [] "base"
        SyncStats.zero).2 = SyncStats.zero := by
  constructor
  · decide
  · decide

/-- C6 (amended): when the final mkdir step of chain creation fails with
`AlreadyExists`, the folder-chain component surfaces that error
unchanged, and the caller layer treats it like any other chain-creation
failure: it skips the subfolder and continues with the siblings. -/
theorem already_exists_surfaced_and_skipped :
    (∀ fuel st p,
      st.existing.contains (normalizePath p) = false →
      normalizePath p ≠ "" →
      (goDir (normalizePath p) ≠ "." ∧ goDir (normalizePath p) ≠ "/"
        ∧ goDir (normalizePath p) ≠ normalizePath p) →
      ∀ st1 calls1,
        createFolderChain fuel st (goDir (normalizePath p)) = (none, st1, calls1) →
        st1.mkdirE (normalizePath p) = some CloudErr.alreadyExists →
        createFolderChain (fuel + 1) st p
          = (some CloudErr.alreadyExists, st1, calls1 ++ [normalizePath p]))
    ∧ (∀ chainFuel nst st sub rest yfolders bp stats,
        mapLookup yfolders (decodedBaseName sub.Path) = none →
        (createFolderChain chainFuel st (bp ++ "/" ++ decodedBaseName sub.Path)).1
          = some CloudErr.alreadyExists →
        syncSubLoop chainFuel nst st (sub :: rest) yfolders bp stats =
          syncSubLoop chainFuel nst
            (createFolderChain chainFuel st (bp ++ "/" ++ decodedBaseName sub.Path)).2.1
            rest yfolders bp stats) := by
  constructor
  · intro fuel st p hcont hne hg st1 calls1 hpar hmk
    rw [createFolderChain]
    try simp only []
    rw [if_neg hne, if_neg (by simpa using hcont), if_pos hg, hpar]
    try simp only []
    rw [hmk]
  · intro chainFuel nst st sub rest yfolders bp stats hlk hc
    exact syncSubLoop_skip chainFuel nst st sub rest yfolders bp stats hlk
      CloudErr.alreadyExists hc

/-- C6 witness: the concrete race scenario, applied to both halves of
the amended claim. -/
theorem already_exists_surfaced_witness :
    createFolderChain (3 + 1) raceY "base/d"
      = (some CloudErr.alreadyExists, { raceY with existing := "base" :: raceY.existing },
         ["base"] ++ ["base/d"])
    ∧ syncSubLoop 3 allOkN raceY [Folder.mk "/s/d" 0 [] []] [] "base" SyncStats.zero =
        syncSubLoop 3 allOkN
          (createFolderChain 3 raceY ("base" ++ "/" ++ decodedBaseName "/s/d")).2.1
          [] [] "base" SyncStats.zero :=
  ⟨already_exists_surfaced_and_skipped.1 3 raceY "base/d" (by decide) (by decide) (by decide)
     { raceY with existing := "base" :: raceY.existing } ["base"] rfl (by decide),
   already_exists_surfaced_and_skipped.2 3 allOkN raceY (Folder.mk "/s/d" 0 [] []) [] [] "base"
     SyncStats.zero rfl (by decide)⟩

/-! ### C9: statistics accounting -/

theorem statsLE_refl (a : SyncStats) : StatsLE a a := by
  unfold StatsLE
  omega

theorem statsLE_trans {a b c : SyncStats} (h1 : StatsLE a b) (h2 : StatsLE b c) : StatsLE a c := by
  unfold StatsLE at h1 h2 ⊢
  omega

theorem statsBalanced_refl (a : SyncStats) : StatsBalanced a a := by
  unfold StatsBalanced
  omega

theorem statsBalanced_trans {a b c : SyncStats} (h1 : StatsBalanced a b)
    (h2 : StatsBalanced b c) : StatsBalanced a c := by
  unfold StatsBalanced at h1 h2 ⊢
  omega

/-- One file step: counters only grow, and the total grows by exactly as
much as the other three counters together. -/
theorem syncFileStep_stats (nst : NState) (st : YState) (f : File)
    (yfs : List (String × File)) (bp : String) (stats : SyncStats) :
    StatsLE stats (syncFileStep nst st f yfs bp stats).2
    ∧ StatsBalanced stats (syncFileStep nst st f yfs bp stats).2 := by
  unfold StatsLE StatsBalanced
  simp only [syncFileStep]
  split
  · split
    · simp
      omega
    · simp
      omega
  · simp
    omega

/-- The file loop: counters only grow and stay balanced. -/
theorem syncFilesLoop_stats : ∀ (files : List File) (nst : NState) (st : YState)
    (yfs : List (String × File)) (bp : String) (stats : SyncStats),
    StatsLE stats (syncFilesLoop nst st files yfs bp stats).2
    ∧ StatsBalanced stats (syncFilesLoop nst st files yfs bp stats).2 := by
  intro files
  induction files with
  | nil =>
    intro nst st yfs bp stats
    rw [syncFilesLoop]
    exact ⟨statsLE_refl stats, statsBalanced_refl stats⟩
  | cons f rest ih =>
    intro nst st yfs bp stats
    rw [syncFilesLoop]
    try simp only []
    have h1 := syncFileStep_stats nst st f yfs bp stats
    have h2 := ih nst (syncFileStep nst st f yfs bp stats).1 yfs bp
      (syncFileStep nst st f yfs bp stats).2
    exact ⟨statsLE_trans h1.1 h2.1, statsBalanced_trans h1.2 h2.2⟩

/-- The reconciler and its subfolder loop: counters only grow and stay
balanced (simultaneous strong induction on the tree size). -/
theorem syncFolders_stats_aux : ∀ n : Nat,
    (∀ nc : Folder, sizeOf nc ≤ n → ∀ chainFuel nst st yx bp stats,
      StatsLE stats (syncFolders chainFuel nst st nc yx bp stats).2.1
      ∧ StatsBalanced stats (syncFolders chainFuel nst st nc yx bp stats).2.1)
    ∧ (∀ subs : List Folder, sizeOf subs ≤ n → ∀ chainFuel nst st yfolders bp stats,
      StatsLE stats (syncSubLoop chainFuel nst st subs yfolders bp stats).2
      ∧ StatsBalanced stats (syncSubLoop chainFuel nst st subs yfolders bp stats).2) := by
  intro n
  induction n using Nat.strong_induction_on with
  | _ n ih =>
    constructor
    · intro nc hnc chainFuel nst st yx bp stats
      cases nc with
      | mk p m fs ds =>
        have hds : sizeOf ds < sizeOf (Folder.mk p m fs ds) := by
          simp
          try omega
        rw [syncFolders]
        try simp only []
        have h1 := syncFilesLoop_stats fs nst st (buildFileMap yx.Files) bp stats
        have h2 := ((ih (sizeOf ds) (by omega)).2 ds (Nat.le_refl _)) chainFuel nst
          (syncFilesLoop nst st fs (buildFileMap yx.Files) bp stats).1
          (buildFolderMap yx.Folders) bp
          (syncFilesLoop nst st fs (buildFileMap yx.Files) bp stats).2
        exact ⟨statsLE_trans h1.1 h2.1, statsBalanced_trans h1.2 h2.2⟩
    · intro subs hs chainFuel nst st yfolders bp stats
      cases subs with
      | nil =>
        rw [syncSubLoop]
        exact ⟨statsLE_refl stats, statsBalanced_refl stats⟩
      | cons sub rest =>
        have hsub : sizeOf sub < n := by
          have : sizeOf sub < sizeOf (sub :: rest) := by
            simp
            try omega
          omega
        have hrest : sizeOf rest < n := by
          have : sizeOf rest < sizeOf (sub :: rest) := by
            simp
            try omega
          omega
        rw [syncSubLoop]
        try simp only []
        cases hlk : mapLookup yfolders (decodedBaseName sub.Path) with
        | none =>
          simp only [hlk]
          rcases hcc : createFolderChain chainFuel st
            (bp ++ "/" ++ decodedBaseName sub.Path) with ⟨r1, st1, calls⟩
          cases r1 with
          | some e =>
            exact ((ih (sizeOf rest) hrest).2 rest (Nat.le_refl _)) chainFuel nst st1
              yfolders bp stats
          | none =>
            have h1 := ((ih (sizeOf sub) hsub).1 sub (Nat.le_refl _)) chainFuel nst st1
              (Folder.mk (bp ++ "/" ++ decodedBaseName sub.Path) 0 [] [])
              (bp ++ "/" ++ decodedBaseName sub.Path) stats
            have h2 := ((ih (sizeOf rest) hrest).2 rest (Nat.le_refl _)) chainFuel nst
              (syncFolders chainFuel nst st1 sub
                (Folder.mk (bp ++ "/" ++ decodedBaseName sub.Path) 0 [] [])
                (bp ++ "/" ++ decodedBaseName sub.Path) stats).1
              yfolders bp
              (syncFolders chainFuel nst st1 sub
                (Folder.mk (bp ++ "/" ++ decodedBaseName sub.Path) 0 [] [])
                (bp ++ "/" ++ decodedBaseName sub.Path) stats).2.1
            exact ⟨statsLE_trans h1.1 h2.1, statsBalanced_trans h1.2 h2.2⟩
        | some ySub =>
          simp only [hlk]
          have h1 := ((ih (sizeOf sub) hsub).1 sub (Nat.le_refl _)) chainFuel nst st ySub
            (bp ++ "/" ++ decodedBaseName sub.Path) stats
          have h2 := ((ih (sizeOf rest) hrest).2 rest (Nat.le_refl _)) chainFuel nst
            (syncFolders chainFuel nst st sub ySub
              (bp ++ "/" ++ decodedBaseName sub.Path) stats).1
            yfolders bp
            (syncFolders chainFuel nst st sub ySub
              (bp ++ "/" ++ decodedBaseName sub.Path) stats).2.1
          exact ⟨statsLE_trans h1.1 h2.1, statsBalanced_trans h1.2 h2.2⟩

/-- C9: starting from all-zero statistics the reconciler leaves the
counters satisfying total = uploaded + skipped + errored, all four
non-negative; and on any starting statistics every counter only ever
grows. -/
theorem stats_accounting :
    (∀ chainFuel nst st nc yx bp,
      ((syncFolders chainFuel nst st nc yx bp SyncStats.zero).2.1).TotalFiles =
        ((syncFolders chainFuel nst st nc yx bp SyncStats.zero).2.1).UploadedFiles
        + ((syncFolders chainFuel nst st nc yx bp SyncStats.zero).2.1).SkippedFiles
        + ((syncFolders chainFuel nst st nc yx bp SyncStats.zero).2.1).ErrorFiles
      ∧ 0 ≤ ((syncFolders chainFuel nst st nc yx bp SyncStats.zero).2.1).TotalFiles
      ∧ 0 ≤ ((syncFolders chainFuel nst st nc yx bp SyncStats.zero).2.1).UploadedFiles
      ∧ 0 ≤ ((syncFolders chainFuel nst st nc yx bp SyncStats.zero).2.1).SkippedFiles
      ∧ 0 ≤ ((syncFolders chainFuel nst st nc yx bp SyncStats.zero).2.1).ErrorFiles)
    ∧ (∀ chainFuel nst st nc yx bp stats,
        StatsLE stats (syncFolders chainFuel nst st nc yx bp stats).2.1) := by
  constructor
  · intro chainFuel nst st nc yx bp
    have h := (syncFolders_stats_aux (sizeOf nc)).1 nc (Nat.le_refl _) chainFuel nst st yx bp
      SyncStats.zero
    unfold StatsLE StatsBalanced at h
    obtain ⟨hle, hbal⟩ := h
    simp only [SyncStats.zero] at hle hbal ⊢
    refine ⟨by omega, by omega, by omega, by omega, by omega⟩
  · intro chainFuel nst st nc yx bp stats
    exact ((syncFolders_stats_aux (sizeOf nc)).1 nc (Nat.le_refl _) chainFuel nst st yx bp
      stats).1

/-! ### C10: frame property of the reconciler -/

/-- The state-threading reconciler agrees with the direct one: it leaves
the two trees of the threaded record exactly as given and stores the
stats the direct reconciler computes (simultaneous strong induction on
the source tree size). -/
theorem reconcile_frame_aux : ∀ n : Nat,
    (∀ mem : SyncMem, sizeOf mem.ncTree ≤ n → ∀ chainFuel nst st bp,
      syncFoldersMem chainFuel nst st mem bp =
        ((syncFolders chainFuel nst st mem.ncTree mem.yxTree bp mem.stats).1,
         SyncMem.mk mem.ncTree mem.yxTree
           (syncFolders chainFuel nst st mem.ncTree mem.yxTree bp mem.stats).2.1,
         (syncFolders chainFuel nst st mem.ncTree mem.yxTree bp mem.stats).2.2))
    ∧ (∀ subs : List Folder, sizeOf subs ≤ n → ∀ chainFuel nst st yfolders bp mem,
      syncSubLoopMem chainFuel nst st subs yfolders bp mem =
        ((syncSubLoop chainFuel nst st subs yfolders bp mem.stats).1,
         SyncMem.mk mem.ncTree mem.yxTree
           (syncSubLoop chainFuel nst st subs yfolders bp mem.stats).2)) := by
  intro n
  induction n using Nat.strong_induction_on with
  | _ n ih =>
    constructor
    · intro mem hmem chainFuel nst st bp
      rcases mem with ⟨nc, yx, ms⟩
      cases nc with
      | mk p m fs ds =>
        have hds : sizeOf ds < n := by
          have : sizeOf ds < sizeOf (Folder.mk p m fs ds) := by
            simp
            try omega
          simp only [] at hmem
          omega
        rw [syncFoldersMem, syncFolders]
        simp only [Folder.Files, Folder.Folders]
        rw [(ih (sizeOf ds) hds).2 ds (Nat.le_refl _)]
    · intro subs hs chainFuel nst st yfolders bp mem
      cases subs with
      | nil =>
        rw [syncSubLoopMem, syncSubLoop]
      | cons sub rest =>
        have hsub : sizeOf sub < n := by
          have : sizeOf sub < sizeOf (sub :: rest) := by
            simp
            try omega
          omega
        have hrest : sizeOf rest < n := by
          have : sizeOf rest < sizeOf (sub :: rest) := by
            simp
            try omega
          omega
        rw [syncSubLoopMem, syncSubLoop]
        try simp only []
        cases hlk : mapLookup yfolders (decodedBaseName sub.Path) with
        | none =>
          simp only [hlk]
          rcases hcc : createFolderChain chainFuel st
            (bp ++ "/" ++ decodedBaseName sub.Path) with ⟨r1, st1, calls⟩
          cases r1 with
          | some e =>
            try simp only []
            rw [(ih (sizeOf rest) hrest).2 rest (Nat.le_refl _)]
          | none =>
            try simp only []
            rw [(ih (sizeOf sub) hsub).1
              (SyncMem.mk sub (Folder.mk (bp ++ "/" ++ decodedBaseName sub.Path) 0 [] [])
                mem.stats) (Nat.le_refl _)]
            try simp only []
            rw [(ih (sizeOf rest) hrest).2 rest (Nat.le_refl _)]
        | some ySub =>
          simp only [hlk]
          rw [(ih (sizeOf sub) hsub).1 (SyncMem.mk sub ySub mem.stats) (Nat.le_refl _)]
          try simp only []
          rw [(ih (sizeOf rest) hrest).2 rest (Nat.le_refl _)]

/-- C10: the reconciliation call changes, of the caller-visible data it
can reach, only the statistics record: both input trees come out of the
state-threading reconciler exactly as they went in, while the stats, the
remote-state result and the error result are those of the reconciler. -/
theorem reconcile_frame :
    ∀ chainFuel nst st mem bp,
      (syncFoldersMem chainFuel nst st mem bp).2.1.ncTree = mem.ncTree
      ∧ (syncFoldersMem chainFuel nst st mem bp).2.1.yxTree = mem.yxTree
      ∧ (syncFoldersMem chainFuel nst st mem bp).2.1.stats =
          (syncFolders chainFuel nst st mem.ncTree mem.yxTree bp mem.stats).2.1
      ∧ (syncFoldersMem chainFuel nst st mem bp).1 =
          (syncFolders chainFuel nst st mem.ncTree mem.yxTree bp mem.stats).1
      ∧ (syncFoldersMem chainFuel nst st mem bp).2.2 =
          (syncFolders chainFuel nst st mem.ncTree mem.yxTree bp mem.stats).2.2 := by
  intro chainFuel nst st mem bp
  rw [(reconcile_frame_aux (sizeOf mem.ncTree)).1 mem (Nat.le_refl _) chainFuel nst st bp]
  exact ⟨rfl, rfl, rfl, rfl, rfl⟩

end Nextya
